import Mathlib

/-!
Shallow embedding of the read-only SQLite-file query executor in
`src/main.rs` (codecrafters-sqlite-rust).

Conventions of the embedding:
* A byte buffer (`&[u8]`) is a `List Nat`; every element of a real buffer is
  a byte value `< 256`.
* A Rust slice `&buf[i..]` becomes `dropE i buf`, `&buf[a..b]` becomes
  `sliceE buf a b`; both return `none` exactly when the Rust slicing would
  panic out of bounds.
* `Option` models Rust panics: `none` stands for an index-out-of-bounds
  panic, an assertion failure, `unreachable!`, `unimplemented!`, or (in the
  B-tree walkers) exhaustion of the recursion fuel.  `some` is normal return.
* The database file is a function `F : Nat → Bytes`, mapping a page number
  to that page's bytes (the Rust code reads page `n` at offset
  `(n-1)*page_size`; the pager itself is pure, so this abstraction is exact).
* Machine arithmetic is `Nat`/`Int` with explicit reductions: `u64`
  accumulation wraps mod `2^64`, the `as i64`/`as u64`/`as u32` casts are
  spelled out.
-/

namespace CCSqlite

abbrev Bytes := List Nat

def u64limit : Nat := 2 ^ 64

/-- Embeds `fn variant(buf: &[u8]) -> (u64, &[u8])` (main.rs lines 38-50):
shift seven bits per byte into a `u64` accumulator until a byte with the
high bit clear is consumed.  `none` models the `buf[i]` out-of-bounds panic
when the buffer ends before a terminating byte. -/
def variantAux (v : Nat) : Bytes → Option (Nat × Bytes)
  | [] => none
  | b :: rest =>
    let v2 := (v * 128 + b % 128) % u64limit
    if b % 256 < 128 then some (v2, rest) else variantAux v2 rest

def variant (buf : Bytes) : Option (Nat × Bytes) := variantAux 0 buf

/-- Rust `&l[n..]`: `none` models the panic when `n > l.length`. -/
def dropE (n : Nat) (l : Bytes) : Option Bytes :=
  if n ≤ l.length then some (l.drop n) else none

/-- Rust `&l[..n]`: `none` models the panic when `n > l.length`. -/
def takeE (n : Nat) (l : Bytes) : Option Bytes :=
  if n ≤ l.length then some (l.take n) else none

/-- Rust `&l[a..b]`: `none` models the panic when `a > b` or `b > l.length`. -/
def sliceE (l : Bytes) (a b : Nat) : Option Bytes :=
  if a ≤ b ∧ b ≤ l.length then some ((l.drop a).take (b - a)) else none

/-- Embeds `u16::from_be_bytes([a, b])`. -/
def be16 (a b : Nat) : Nat := a * 256 + b

/-- Embeds `u32::from_be_bytes([a, b, c, d])`. -/
def be32 (a b c d : Nat) : Nat := ((a * 256 + b) * 256 + c) * 256 + d

/-- The cell-pointer array: two big-endian bytes per cell starting at
`base`, `n` entries (`none` models the indexing panic).  This is the
`cell_indices` computation repeated in `tables`, `select`, `rows`, `index`. -/
def cellPtrs (page : Bytes) (base n : Nat) : Option (List Nat) :=
  (List.range n).mapM (fun i => do
    let a ← page.get? (base + 2 * i)
    let b ← page.get? (base + 2 * i + 1)
    pure (be16 a b))

/-- Embeds `i16::from_be_bytes([b0, b1]) as i64`. -/
def i16val (b0 b1 : Nat) : Int :=
  let n := b0 * 256 + b1
  if n % 2 ^ 16 < 2 ^ 15 then (n % 2 ^ 16 : Nat) else (n % 2 ^ 16 : Nat) - 2 ^ 16

/-- Embeds the serial-type-3 read: a 3-byte big-endian integer
sign-extended from the top bit of `b0` (the source builds an `i32` from a
`0xff` or `0x00` prefix byte and casts `as i64`). -/
def i24val (b0 b1 b2 : Nat) : Int :=
  let n := ((b0 % 256) * 256 + b1 % 256) * 256 + b2 % 256
  if b0 % 256 < 128 then (n : Int) else (n : Int) - 2 ^ 24

/-- A one-byte signed integer (sign extension), used only by the
spec-modelled record decoder: the format's serial type 1 is signed. -/
def i8signed (b : Nat) : Int :=
  if b % 256 < 128 then (b % 256 : Nat) else (b % 256 : Nat) - 256

/-- The Rust cast `x as i64` for `x : u64`. -/
def u64toI64 (n : Nat) : Int :=
  if n % u64limit < 2 ^ 63 then (n % u64limit : Nat) else (n % u64limit : Nat) - u64limit

/-- The Rust cast `x as u64` for `x : i64`. -/
def i64toU64 (i : Int) : Nat := (i % (2 ^ 64 : Int)).toNat

/-- The Rust cast `x as u32` for `x : i64`. -/
def i64toU32 (i : Int) : Nat := (i % (2 ^ 32 : Int)).toNat

/-- Embeds `enum Column { Integer(i64), Text(String) }` (main.rs lines
19-24).  Text carries its UTF-8 bytes. -/
inductive Column where
  | Integer : Int → Column
  | Text : Bytes → Column
deriving DecidableEq

abbrev Row := List Column

/-- UTF-8 bytes of an ASCII string literal (used to build concrete inputs
and expected outputs). -/
def strBytes (s : String) : Bytes := s.toList.map Char.toNat

/-- The `Display` impl for `Column` (main.rs lines 26-34): integers print in
decimal, text prints as itself.  Result as UTF-8 bytes. -/
def columnBytes : Column → Bytes
  | Column.Integer i => strBytes (toString i)
  | Column.Text s => s

/-- Lexicographic byte order: Rust `str` `<`. -/
def lexLt : Bytes → Bytes → Bool
  | _, [] => false
  | [], _ :: _ => true
  | a :: xs, b :: ys => a < b || (a == b && lexLt xs ys)

/-- Rust `str` `<=` (total order). -/
def lexLe (xs ys : Bytes) : Bool := !lexLt ys xs

/-- Validity predicate of `std::str::from_utf8` (RFC 3629 table): used to
model the `.unwrap()` panic on invalid UTF-8 text payloads. -/
def contB (b : Nat) : Bool := 128 ≤ b && b < 192

def validUtf8 : Bytes → Bool
  | [] => true
  | b :: rest =>
    if b < 128 then validUtf8 rest
    else if b < 194 then false
    else if b < 224 then
      match rest with
      | c1 :: r => contB c1 && validUtf8 r
      | [] => false
    else if b = 224 then
      match rest with
      | c1 :: c2 :: r => (160 ≤ c1 && c1 < 192) && contB c2 && validUtf8 r
      | _ => false
    else if b < 237 then
      match rest with
      | c1 :: c2 :: r => contB c1 && contB c2 && validUtf8 r
      | _ => false
    else if b = 237 then
      match rest with
      | c1 :: c2 :: r => (128 ≤ c1 && c1 < 160) && contB c2 && validUtf8 r
      | _ => false
    else if b < 240 then
      match rest with
      | c1 :: c2 :: r => contB c1 && contB c2 && validUtf8 r
      | _ => false
    else if b = 240 then
      match rest with
      | c1 :: c2 :: c3 :: r => (144 ≤ c1 && c1 < 192) && contB c2 && contB c3 && validUtf8 r
      | _ => false
    else if b < 244 then
      match rest with
      | c1 :: c2 :: c3 :: r => contB c1 && contB c2 && contB c3 && validUtf8 r
      | _ => false
    else if b = 244 then
      match rest with
      | c1 :: c2 :: c3 :: r => (128 ≤ c1 && c1 < 144) && contB c2 && contB c3 && validUtf8 r
      | _ => false
    else false

/-- The record-body decoding loop of the source.  The same loop occurs three
times: in `select` (lines 193-221) and `rows` (lines 277-305) with
`zeroCol = Column::Integer(row_id as i64)` and serial types {0,1,2,9,text};
and in `row` (lines 323-359) with `zeroCol = Column::Integer(0)` and the
additional serial type 3 (`hasT3 = true`).  Serial type 1 is decoded
unsigned (`cell[0] as i64` zero-extends a `u8`), exactly as in the source.
`none` models the `unimplemented!` panic on any other serial type, the
slice panics, and the `from_utf8(..).unwrap()` panic.  `decodeOne` is one
arm of the `match t`: it yields the decoded column and the advanced body;
`decodeLoop` is the `while !header.is_empty()` loop around it, with the
serial-type varint popped off the header each iteration.  `fuel` bounds the
loop; `header.length + 1` always suffices since every iteration consumes at
least one header byte. -/
def decodeOne (zeroCol : Column) (hasT3 : Bool) (t : Nat) (cell : Bytes) :
    Option (Column × Bytes) :=
  if t = 0 then some (zeroCol, cell)
  else if t = 1 then
    match cell with
    | b :: rest => some (Column.Integer (Int.ofNat b), rest)
    | [] => none
  else if t = 2 then
    match cell with
    | b0 :: b1 :: rest => some (Column.Integer (i16val b0 b1), rest)
    | _ => none
  else if t = 3 ∧ hasT3 = true then
    match cell with
    | b0 :: b1 :: b2 :: rest => some (Column.Integer (i24val b0 b1 b2), rest)
    | _ => none
  else if t = 9 then some (Column.Integer 1, cell)
  else if 13 ≤ t ∧ t % 2 = 1 then
    match takeE ((t - 13) / 2) cell, dropE ((t - 13) / 2) cell with
    | some txt, some rest => if validUtf8 txt then some (Column.Text txt, rest) else none
    | _, _ => none
  else none

def decodeLoop (zeroCol : Column) (hasT3 : Bool) : Nat → Bytes → Bytes → Option Row
  | 0, _, _ => none
  | fuel + 1, header, cell =>
    match header with
    | [] => some []
    | _ :: _ =>
      match variant header with
      | none => none
      | some (t, header2) =>
        match decodeOne zeroCol hasT3 t cell with
        | none => none
        | some (col, cell2) =>
          (decodeLoop zeroCol hasT3 fuel header2 cell2).map (fun r => col :: r)

/-- The decode loop as used on table-leaf cells by `select` and `rows`:
serial type 0 materializes the enclosing cell's rowid (`row_id as i64`). -/
def leafDecode (rid : Nat) : Nat → Bytes → Bytes → Option Row :=
  decodeLoop (Column.Integer (u64toI64 rid)) false

/-- The decode loop of `fn row` (no rowid available): serial type 0
materializes integer 0, and serial type 3 is supported. -/
def rowDecode : Nat → Bytes → Bytes → Option Row :=
  decodeLoop (Column.Integer 0) true

/-- Embeds `fn row(cell: &[u8]) -> Row` (main.rs lines 315-362): the header
length is taken from the first byte alone (`// assume header length is 1
byte`), the serial types occupy `cell[1..header_length]`, the body starts at
`cell[header_length..]`. -/
def row (cell : Bytes) : Option Row := do
  let hl ← cell.get? 0
  let header ← sliceE cell 1 hl
  let body ← dropE hl cell
  rowDecode (header.length + 1) header body

/-- The sequence of serial types declared by a record header: repeated
varints until the header is exhausted.  Derived projection of the decoding
loops, used to state which position carries which serial type. -/
def parseTypes : Nat → Bytes → Option (List Nat)
  | 0, _ => none
  | fuel + 1, header =>
    match header with
    | [] => some []
    | _ :: _ =>
      match variant header with
      | none => none
      | some (t, header2) => (parseTypes fuel header2).map (fun ts => t :: ts)

/-- The leaf-cell search loop of `select` on a `0x0d` page (main.rs lines
178-225): linear-search the cells for an exact rowid match and decode that
cell's record.  When no cell matches, the source executes `unreachable!()` —
a panic, modelled by `none` (there is no NotFound error value). -/
def selectLeafLoop (rowId : Nat) (page : Bytes) : List Nat → Option Row
  | [] => none
  | idx :: rest => do
    let cell ← dropE idx page
    let (_pl, c1) ← variant cell
    let (k, c2) ← variant c1
    if rowId = k then do
      let hl ← c2.get? 0
      let header ← sliceE c2 1 hl
      let body ← dropE hl c2
      leafDecode rowId (header.length + 1) header body
    else selectLeafLoop rowId page rest

/-- The interior-cell loop of `select` on a `0x05` page (main.rs lines
148-168): descend into the left child of the first cell whose separator key
is `≥ rowId`; if no cell qualifies, descend into the right-most pointer
`rm`.  `recur n` reads page `n` and recurses. -/
def selectInterLoop (recur : Nat → Option Row) (page : Bytes) (rowId rm : Nat) :
    List Nat → Option Row
  | [] => recur rm
  | idx :: rest => do
    let cell ← dropE idx page
    match cell with
    | a :: b :: c :: d :: cell4 => do
      let (key, _) ← variant cell4
      if rowId ≤ key then recur (be32 a b c d)
      else selectInterLoop recur page rowId rm rest
    | _ => none

/-- Embeds `fn select(row_id, page, file, page_size) -> Row` (main.rs lines
137-229): seek-by-rowid over a table B-tree.  `F` is the database file
(page number to page bytes); `fuel` bounds the recursion depth. -/
def select (F : Nat → Bytes) : Nat → Nat → Bytes → Option Row
  | 0, _, _ => none
  | fuel + 1, rowId, page => do
    let p0 ← page.get? 0
    if p0 = 5 then do
      let b3 ← page.get? 3
      let b4 ← page.get? 4
      let r8 ← page.get? 8
      let r9 ← page.get? 9
      let r10 ← page.get? 10
      let r11 ← page.get? 11
      let idxs ← cellPtrs page 12 (be16 b3 b4)
      selectInterLoop (fun n => select F fuel rowId (F n)) page rowId (be32 r8 r9 r10 r11) idxs
    else if p0 = 13 then do
      let b3 ← page.get? 3
      let b4 ← page.get? 4
      let idxs ← cellPtrs page 8 (be16 b3 b4)
      selectLeafLoop rowId page idxs
    else none

/-- One leaf cell of a full scan (main.rs lines 263-308): payload-length
varint, rowid varint, then the record with the one-byte header-length
assumption and the rowid-aliasing decode loop. -/
def rowsLeafCell (page : Bytes) (idx : Nat) : Option Row := do
  let cell ← dropE idx page
  let (_pl, c1) ← variant cell
  let (rid, c2) ← variant c1
  let hl ← c2.get? 0
  let header ← sliceE c2 1 hl
  let body ← dropE hl c2
  leafDecode rid (header.length + 1) header body

/-- The interior loop of `rows` on a `0x05` page (main.rs lines 241-253):
`flat_map` over the cells, recursing into each cell's left child.  Note the
source never reads bytes 8-11 (the right-most child pointer) here: after
the cells, nothing further is scanned. -/
def rowsInterLoop (recur : Nat → Option (List Row)) (page : Bytes) :
    List Nat → Option (List Row)
  | [] => some []
  | idx :: rest => do
    let cell ← dropE idx page
    match cell with
    | a :: b :: c :: d :: _ => do
      let sub ← recur (be32 a b c d)
      let more ← rowsInterLoop recur page rest
      pure (sub ++ more)
    | _ => none

/-- Embeds `fn rows(page, file, page_size) -> Vec<Row>` (main.rs lines
231-313): full scan of a table B-tree subtree. -/
def rows (F : Nat → Bytes) : Nat → Bytes → Option (List Row)
  | 0, _ => none
  | fuel + 1, page => do
    let p0 ← page.get? 0
    if p0 = 5 then do
      let b3 ← page.get? 3
      let b4 ← page.get? 4
      let idxs ← cellPtrs page 12 (be16 b3 b4)
      rowsInterLoop (fun n => rows F fuel (F n)) page idxs
    else if p0 = 13 then do
      let b3 ← page.get? 3
      let b4 ← page.get? 4
      let idxs ← cellPtrs page 8 (be16 b3 b4)
      idxs.mapM (rowsLeafCell page)
    else none

/-- The interior-cell loop of `index` on a `0x02` page (main.rs lines
378-428).  Each cell: left-child pointer, payload-length varint, record
(decoded by `row`); a cell whose first column prints equal to `key` is
pushed; the left child is descended when the target lies in the separator
range (`left_key` is the previous separator, compared with non-strict
`<=` on both sides); iteration breaks once the separator strictly exceeds
`key` with a previous separator present.  The right-most pointer is never
descended (that block is commented out in the source). -/
def indexInterLoop (recur : Nat → Option (List Row)) (page key : Bytes) :
    List Nat → Option Bytes → Option (List Row)
  | [], _ => some []
  | idx :: rest, leftKey => do
    let cell ← dropE idx page
    match cell with
    | a :: b :: c :: d :: cell4 => do
      let (_pl, cell5) ← variant cell4
      let r ← row cell5
      let c0 ← r.get? 0
      let text := columnBytes c0
      let base := if text == key then [r] else []
      match leftKey with
      | none =>
        if lexLe key text then do
          let sub ← recur (be32 a b c d)
          let more ← indexInterLoop recur page key rest (some text)
          pure (base ++ sub ++ more)
        else do
          let more ← indexInterLoop recur page key rest (some text)
          pure (base ++ more)
      | some lk =>
        if lexLe lk key && lexLe key text then do
          let sub ← recur (be32 a b c d)
          let more ← indexInterLoop recur page key rest (some text)
          pure (base ++ sub ++ more)
        else if lexLt key text then
          pure base
        else do
          let more ← indexInterLoop recur page key rest (some text)
          pure (base ++ more)
    | _ => none

/-- The leaf loop of `index` on a `0x0a` page (main.rs lines 450-458):
decode every cell's record, collect those whose first column prints equal
to `key`. -/
def indexLeafLoop (page key : Bytes) : List Nat → Option (List Row)
  | [] => some []
  | idx :: rest => do
    let cell ← dropE idx page
    let (_pl, c1) ← variant cell
    let r ← row c1
    let c0 ← r.get? 0
    let more ← indexLeafLoop page key rest
    pure ((if columnBytes c0 == key then [r] else []) ++ more)

/-- Embeds `fn index(file, page, page_size, key) -> Vec<Row>` (main.rs
lines 364-464): key-equality search over an index B-tree, returning the
full decoded index records (not bare rowids).  On an interior page the
right-most pointer is read into an unused variable and never followed. -/
def index (F : Nat → Bytes) (key : Bytes) : Nat → Bytes → Option (List Row)
  | 0, _ => none
  | fuel + 1, page => do
    let p0 ← page.get? 0
    if p0 = 2 then do
      let _r8 ← page.get? 8
      let _r9 ← page.get? 9
      let _r10 ← page.get? 10
      let _r11 ← page.get? 11
      let b3 ← page.get? 3
      let b4 ← page.get? 4
      let idxs ← cellPtrs page 12 (be16 b3 b4)
      indexInterLoop (fun n => index F key fuel (F n)) page key idxs none
    else if p0 = 10 then do
      let b3 ← page.get? 3
      let b4 ← page.get? 4
      let idxs ← cellPtrs page 8 (be16 b3 b4)
      indexLeafLoop page key idxs
    else none

/-- Embeds `struct Table` (main.rs lines 9-17): one `sqlite_schema` row. -/
structure Table where
  ty : Bytes
  name : Bytes
  tbl_name : Bytes
  rootpage : Nat
  sql : Bytes
deriving DecidableEq

/-- One text column of a schema cell: the source asserts the serial type is
odd and `≥ 13`, takes `(t-13)/2` bytes and `from_utf8(..).unwrap()`s them. -/
def schemaText (t : Nat) (cell : Bytes) : Option (Bytes × Bytes) := do
  if 13 ≤ t ∧ t % 2 = 1 then
    let s ← takeE ((t - 13) / 2) cell
    if validUtf8 s then do
      let rest ← dropE ((t - 13) / 2) cell
      pure (s, rest)
    else none
  else none

/-- The `rootpage` column of a schema cell (main.rs lines 93-118): serial
types 1, 2 and 3 are supported, read as integers and cast `as u32`; any
other type hits `panic!("TODO")`, modelled `none`. -/
def schemaRootpage (t : Nat) (cell : Bytes) : Option (Nat × Bytes) :=
  match t, cell with
  | 1, b :: rest => some (b, rest)
  | 2, b0 :: b1 :: rest => some (i64toU32 (i16val b0 b1), rest)
  | 3, b0 :: b1 :: b2 :: rest => some (i64toU32 (i24val b0 b1 b2), rest)
  | _, _ => none

/-- Locating the record of a schema cell (main.rs lines 63-69): skip the
payload-length and rowid varints, read the one-byte header length, return
the serial-type region `cell[1..header_length]` and the body
`cell[header_length..]`. -/
def schemaRecord (first_page : Bytes) (idx : Nat) : Option (Bytes × Bytes) := do
  let cell0 ← dropE idx first_page
  let (_pl, cell1) ← variant cell0
  let (_rid, cell2) ← variant cell1
  let hl ← cell2.get? 0
  let header0 ← sliceE cell2 1 hl
  let cell3 ← dropE hl cell2
  pure (header0, cell3)

/-- One text column of a schema cell: pop the serial type off the header,
then take the text from the body.  Returns (text, header rest, body rest). -/
def schemaTextStep (hc : Bytes × Bytes) : Option (Bytes × Bytes × Bytes) := do
  let (t, h2) ← variant hc.1
  let (s, c2) ← schemaText t hc.2
  pure (s, h2, c2)

/-- One schema cell (main.rs lines 62-133): the record, then the five fixed
columns `type, name, tbl_name, rootpage, sql`. -/
def schemaCell (first_page : Bytes) (idx : Nat) : Option Table := do
  let hb ← schemaRecord first_page idx
  let a1 ← schemaTextStep hb
  let a2 ← schemaTextStep a1.2
  let a3 ← schemaTextStep a2.2
  let (t4, header4) ← variant a3.2.1
  let rp ← schemaRootpage t4 a3.2.2
  let a5 ← schemaTextStep (header4, rp.2)
  pure ⟨a1.1, a2.1, a3.1, rp.1, a5.1⟩

/-- Embeds `fn tables(first_page: &[u8]) -> Vec<Table>` (main.rs lines
52-135): asserts the schema page is a table leaf (`first_page[100] == 0x0d`,
panic modelled `none` otherwise), reads the cell count from bytes 103-104
and the cell pointers from offset 108, and decodes every schema cell. -/
def tables (first_page : Bytes) : Option (List Table) := do
  let b100 ← first_page.get? 100
  if b100 = 13 then do
    let b103 ← first_page.get? 103
    let b104 ← first_page.get? 104
    let idxs ← cellPtrs first_page 108 (be16 b103 b104)
    idxs.mapM (schemaCell first_page)
  else none

/-- Join with a separator: Rust `Vec::join`. -/
def sepJoin (sep : Bytes) : List Bytes → Bytes
  | [] => []
  | [x] => x
  | x :: xs => x ++ sep ++ sepJoin sep xs

/-- The `.tables` command (main.rs lines 506-521): print the `name` of
every schema row whose name is not `sqlite_sequence`, joined by spaces.
Note there is no filter on the row's `type`: index rows are printed too. -/
def tablesOutput (first_page : Bytes) : Option Bytes :=
  (tables first_page).map (fun ts =>
    sepJoin [32] ((ts.filter (fun t => t.name != strBytes "sqlite_sequence")).map
      (fun t => t.name)))

/-- The rowid extraction of the index-driven query path (main.rs line 646):
`let Column::Integer(row_id) = &i[1] else { unreachable!() }`.  `none`
models both the indexing panic when the record has fewer than two columns
and the `unreachable!` when position 1 is not an integer. -/
def extractRowId (r : Row) : Option Int :=
  match r.get? 1 with
  | some (Column.Integer i) => some i
  | _ => none

/-- The index-driven execution of the query planner (main.rs lines
643-649): for every record returned by the index probe, take the integer in
position 1 as the rowid and `select` it from the table's root page. -/
def indexedSelect (F : Nat → Bytes) (fuel : Nat) (rootPage : Bytes) (found : List Row) :
    Option (List Row) :=
  found.mapM (fun r => do
    let rid ← extractRowId r
    select F fuel (i64toU64 rid) rootPage)

/-- Modelled from the spec: the record decoder of §4.3 with the serial-type
table of §3, which the source only approximates.  The header length is a
full varint ("the header length includes its own varint bytes"), the serial
types occupy the rest of the header region, and the types decode per the
table: 0 is NULL, materialized as integer 0 for a caller that cannot supply
a rowid (§4.3); 1, 2, 3 are signed big-endian integers (sign-extended);
8 is integer 0; 9 is integer 1; odd `≥ 13` is UTF-8 text of `(t-13)/2`
bytes.  Any other type fails (`UnknownSerialType`), modelled `none`. -/
def specDecodeOne (t : Nat) (cell : Bytes) : Option (Column × Bytes) :=
  if t = 0 then some (Column.Integer 0, cell)
  else if t = 1 then
    match cell with
    | b :: rest => some (Column.Integer (i8signed b), rest)
    | [] => none
  else if t = 2 then
    match cell with
    | b0 :: b1 :: rest => some (Column.Integer (i16val b0 b1), rest)
    | _ => none
  else if t = 3 then
    match cell with
    | b0 :: b1 :: b2 :: rest => some (Column.Integer (i24val b0 b1 b2), rest)
    | _ => none
  else if t = 8 then some (Column.Integer 0, cell)
  else if t = 9 then some (Column.Integer 1, cell)
  else if 13 ≤ t ∧ t % 2 = 1 then
    match takeE ((t - 13) / 2) cell, dropE ((t - 13) / 2) cell with
    | some txt, some rest => if validUtf8 txt then some (Column.Text txt, rest) else none
    | _, _ => none
  else none

def specDecodeCols : Nat → Bytes → Bytes → Option Row
  | 0, _, _ => none
  | fuel + 1, header, cell =>
    match header with
    | [] => some []
    | _ :: _ =>
      match variant header with
      | none => none
      | some (t, header2) =>
        match specDecodeOne t cell with
        | none => none
        | some (col, cell2) =>
          (specDecodeCols fuel header2 cell2).map (fun r => col :: r)

/-- Modelled from the spec: whole-record decoding per the record format of
§3 — `[header-length varint][serial-type varint]*[body bytes]*`, the header
length counted from the record start and including its own varint bytes. -/
def specRow (cell : Bytes) : Option Row := do
  let (hl, rest) ← variant cell
  let header ← sliceE cell (cell.length - rest.length) hl
  let body ← dropE hl cell
  specDecodeCols (header.length + 1) header body

/-- The header region used by every decoding path of the source, as
(start index of the serial types, end index of the header): the source
takes `(1, cell[0])` — lines 66-69, 186-189, 270-273, 316-319. -/
def codeHeaderBounds (cell : Bytes) : Option (Nat × Nat) :=
  (cell.get? 0).map (fun b0 => (1, b0))

/-- Modelled from the spec: the header region per the record format — the
serial types start after the header-length varint and end at the decoded
header length. -/
def specHeaderBounds (cell : Bytes) : Option (Nat × Nat) :=
  (variant cell).map (fun vr => (cell.length - vr.2.length, vr.1))

/-!
Concrete databases used as inputs of the claims.  Pages are laid out
exactly per the B-tree page format the source reads: leaf pages have an
8-byte header (type, free-block offset, cell count at 3-4, content offset,
fragment count) and cell pointers from offset 8; interior pages carry the
right-most child pointer in bytes 8-11 and cell pointers from offset 12.
-/

/-- A table-leaf page holding the single row (rowid 1, [42]): cell at
offset 10 is payload-length 3, rowid 1, record header `[2, 1]`, body `[42]`. -/
def tblLeaf42 : Bytes := [13, 0, 0, 0, 1, 0, 0, 0, 0, 10, 3, 1, 2, 1, 42]

/-- A table-leaf page holding the single row (rowid 2, [43]). -/
def tblLeaf43 : Bytes := [13, 0, 0, 0, 1, 0, 0, 0, 0, 10, 3, 2, 2, 1, 43]

/-- A table-interior page (type 5) with one cell (left child = page 2,
separator rowid 1) and right-most child pointer = page 3. -/
def tblRoot : Bytes := [5, 0, 0, 0, 1, 0, 0, 0, 0, 0, 0, 3, 0, 14, 0, 0, 0, 2, 1]

/-- A two-level table B-tree: root (page 1) has leaf page 2 under its only
cell and leaf page 3 as the right-most child. -/
def tblFile : Nat → Bytes := fun n =>
  if n = 1 then tblRoot else if n = 2 then tblLeaf42 else if n = 3 then tblLeaf43 else []

/-- A table-leaf page with cell count 0. -/
def emptyLeaf : Bytes := [13, 0, 0, 0, 0, 0, 0, 0]

/-- A table-leaf page holding the single row (rowid 1, [77]). -/
def oneRowLeaf : Bytes := [13, 0, 0, 0, 1, 0, 0, 0, 0, 10, 3, 1, 2, 1, 77]

/-- An index-leaf page (type 10) with one record ("a", rowid 1): record
header `[3, 15, 1]`, body `"a" ++ [1]`. -/
def idxLeafA : Bytes := [10, 0, 0, 0, 1, 0, 0, 0, 0, 10, 5, 3, 15, 1, 97, 1]

/-- An index-leaf page with one record ("b", rowid 2). -/
def idxLeafB : Bytes := [10, 0, 0, 0, 1, 0, 0, 0, 0, 10, 5, 3, 15, 1, 98, 2]

/-- An index-interior page (type 2) with one cell (left child = page 5,
separator record ("a", 1)) and right-most child pointer = page 6. -/
def idxRoot : Bytes :=
  [2, 0, 0, 0, 1, 0, 0, 0, 0, 0, 0, 6, 0, 14, 0, 0, 0, 5, 5, 3, 15, 1, 97, 1]

/-- A two-level index B-tree: the key "b" lives only in the right-most
child (page 6). -/
def idxFile : Nat → Bytes := fun n =>
  if n = 4 then idxRoot else if n = 5 then idxLeafA else if n = 6 then idxLeafB else []

/-- An index-leaf page with one record ("z", rowid 7). -/
def idxLeafZ : Bytes := [10, 0, 0, 0, 1, 0, 0, 0, 0, 10, 5, 3, 15, 1, 122, 7]

/-- An index-interior page with one cell (left child = page 8, separator
record ("a", 1)) and right-most child pointer = page 9: the key "z"
exceeds every separator on the page. -/
def idxRootZ : Bytes :=
  [2, 0, 0, 0, 1, 0, 0, 0, 0, 0, 0, 9, 0, 14, 0, 0, 0, 8, 5, 3, 15, 1, 97, 1]

/-- A two-level index B-tree in which the searched key "z" exceeds every
separator of the root and lives only in the right-most child (page 9). -/
def idxFileZ : Nat → Bytes := fun n =>
  if n = 7 then idxRootZ else if n = 8 then idxLeafA else if n = 9 then idxLeafZ else []

/-- A record whose header-length varint needs two bytes: `[0x81, 0x00]`
decodes to header length 128, followed by a serial type 0 and 125 empty
texts (type 13); the trailing type-13 byte keeps the buffer long enough for
the code's mis-read header `bytes[1..129]`.  Both decoders succeed on it
with different rows. -/
def longHeaderRecord : Bytes := [129, 0, 0] ++ List.replicate 126 13

/-- Serial type of a text of the given bytes (odd, `≥ 13`). -/
def textType (s : Bytes) : Nat := 13 + 2 * s.length

/-- A well-formed `sqlite_schema` table-leaf cell with the five columns
`type, name, tbl_name, rootpage, sql` (rootpage as serial type 1). -/
def mkSchemaCell (rid : Nat) (ty nm tbl : String) (rp : Nat) (sql : String) : Bytes :=
  let tyB := strBytes ty
  let nmB := strBytes nm
  let tblB := strBytes tbl
  let sqlB := strBytes sql
  let header : Bytes := [6, textType tyB, textType nmB, textType tblB, 1, textType sqlB]
  let body : Bytes := tyB ++ nmB ++ tblB ++ [rp] ++ sqlB
  (header.length + body.length) :: rid :: (header ++ body)

/-- The schema page of the canonical sample database of the spec: tables
`apples` and `oranges` plus the index `idx_apples_name` (page 1: file
header in bytes 0-99, B-tree header at 100, cell pointers from 108). -/
def schemaPage : Bytes :=
  let c1 := mkSchemaCell 1 "table" "apples" "apples" 2 "s"
  let c2 := mkSchemaCell 2 "table" "oranges" "oranges" 3 "s"
  let c3 := mkSchemaCell 3 "index" "idx_apples_name" "apples" 4 "i"
  let o1 := 114
  let o2 := o1 + c1.length
  let o3 := o2 + c2.length
  List.replicate 100 0 ++ [13, 0, 0, 0, 3, 0, 0, 0] ++
    [o1 / 256, o1 % 256, o2 / 256, o2 % 256, o3 / 256, o3 % 256] ++ c1 ++ c2 ++ c3

/-!
General lemmas about the embedding.
-/

theorem variantAux_shrinks : ∀ (l : Bytes) (v x : Nat) (r : Bytes),
    variantAux v l = some (x, r) → r.length < l.length := by
  intro l
  induction l with
  | nil => intro v x r h; simp [variantAux] at h
  | cons b tl ih =>
    intro v x r h
    rw [variantAux] at h
    split at h
    · simp only [Option.some.injEq, Prod.mk.injEq] at h
      obtain ⟨-, rfl⟩ := h
      simp
    · exact Nat.lt_trans (ih _ _ _ h) (by simp)

/-- A byte below 128 is a complete one-byte varint encoding of itself. -/
theorem variant_single (b0 : Nat) (rest : Bytes) (h : b0 < 128) :
    variant (b0 :: rest) = some (b0, rest) := by
  rw [variant, variantAux]
  have h1 : b0 % 256 = b0 := Nat.mod_eq_of_lt (by omega)
  have h2 : b0 % 128 = b0 := Nat.mod_eq_of_lt h
  have h3 : b0 % u64limit = b0 := Nat.mod_eq_of_lt (by simp [u64limit]; omega)
  simp [h1, h2, h]
  simpa [h2] using h3

theorem specHeaderBounds_single (b0 : Nat) (rest : Bytes) (h : b0 < 128) :
    specHeaderBounds (b0 :: rest) = codeHeaderBounds (b0 :: rest) := by
  simp [specHeaderBounds, codeHeaderBounds, variant_single b0 rest h]

theorem variant_multi (b0 : Nat) (rest : Bytes) (h1 : 128 ≤ b0) (h2 : b0 < 256) :
    variant (b0 :: rest) = variantAux (b0 % 128) rest := by
  have hb : ¬ b0 % 256 < 128 := by rw [Nat.mod_eq_of_lt h2]; omega
  have hacc : (0 * 128 + b0 % 128) % u64limit = b0 % 128 := by
    have : b0 % 128 < 128 := Nat.mod_lt _ (by omega)
    simp [u64limit]
    omega
  rw [variant, variantAux]
  simp only [hb, if_false, hacc]

theorem specHeaderBounds_multi (b0 : Nat) (rest : Bytes) (h1 : 128 ≤ b0) (h2 : b0 < 256) :
    specHeaderBounds (b0 :: rest) ≠ codeHeaderBounds (b0 :: rest) := by
  have hv := variant_multi b0 rest h1 h2
  cases hr : variantAux (b0 % 128) rest with
  | none => simp [specHeaderBounds, codeHeaderBounds, hv, hr]
  | some xr =>
    obtain ⟨x, r⟩ := xr
    have hlt : r.length < rest.length := variantAux_shrinks rest _ x r hr
    simp only [specHeaderBounds, codeHeaderBounds, hv, hr, Option.map_some', List.get?]
    intro hcontra
    simp only [Option.some.injEq, Prod.mk.injEq] at hcontra
    have : (b0 :: rest).length - r.length = 1 := hcontra.1
    simp only [List.length_cons] at this
    omega

theorem decodeOne_zero (z : Column) (h3 : Bool) (cell : Bytes) :
    decodeOne z h3 0 cell = some (z, cell) := rfl

/-- Whenever the decoding loop succeeds, every position whose serial type is
0 holds the loop's zero column. -/
theorem decodeLoop_zero (z : Column) (h3 : Bool) :
    ∀ fuel header cell r, decodeLoop z h3 fuel header cell = some r →
      ∃ ts, parseTypes fuel header = some ts ∧
        ∀ j, ts.get? j = some 0 → r.get? j = some z := by
  intro fuel
  induction fuel with
  | zero => intro header cell r h; simp [decodeLoop] at h
  | succ fuel ih =>
    intro header cell r h
    cases header with
    | nil =>
      simp only [decodeLoop, Option.some.injEq] at h
      subst h
      exact ⟨[], by simp [parseTypes], fun j hj => by simp at hj⟩
    | cons b tl =>
      rw [decodeLoop] at h
      split at h
      · exact absurd h (by simp)
      · rename_i t header2 hv
        split at h
        · exact absurd h (by simp)
        · rename_i col cell2 hd
          simp only [Option.map_eq_some'] at h
          obtain ⟨r', hr', rfl⟩ := h
          obtain ⟨ts', hts', hprop⟩ := ih header2 cell2 r' hr'
          refine ⟨t :: ts', ?_, ?_⟩
          · rw [parseTypes, hv]
            simp [hts']
          · intro j hj
            cases j with
            | zero =>
              simp only [List.get?, Option.some.injEq] at hj
              subst hj
              rw [decodeOne_zero] at hd
              simp only [Option.some.injEq, Prod.mk.injEq] at hd
              simp [hd.1]
            | succ j =>
              simp only [List.get?] at hj ⊢
              exact hprop j hj

set_option maxRecDepth 100000

/-- C1: the claim states that a full scan on an interior (0x05) page
recursively scans each cell's left child and, after all cells, the
right-most child, yielding every (rowid, row) of the subtree in ascending
rowid order.  The interior branch of `rows` never reads the right-most
child pointer: on the two-leaf tree `tblFile` (root `tblRoot`, left leaf
holding rowid 1 ↦ [42], right-most leaf `tblLeaf43` holding rowid 2 ↦
[43]) the scan of the root yields only the left leaf's row, although
scanning the right-most child page itself yields its row.  The row with
rowid 2 is silently dropped, refuting "yields every (rowid, row) of the
subtree". -/
theorem fullScanMissesRightmostChild :
    rows tblFile 9 tblRoot = some [[Column.Integer 42]] ∧
    rows tblFile 9 tblLeaf43 = some [[Column.Integer 43]] := by decide

/-- C2: the claim states `find(R, k)` returns exactly the multiset of
rowids matching `k`, every match surfaced.  The index walker never descends
the right-most pointer (the block is commented out in the source): on the
two-level index `idxFile` (root `idxRoot` with single separator "a",
right-most child `idxLeafB` holding the entry ("b", rowid 2)), searching
for "b" returns the empty list even though the right-most leaf — part of
the tree, as the second conjunct shows — contains a matching entry with
rowid 2. -/
theorem indexFindMissesRightmostSubtree :
    index idxFile (strBytes "b") 9 idxRoot = some [] ∧
    index idxFile (strBytes "b") 9 idxLeafB =
      some [[Column.Text [98], Column.Integer 2]] := by decide

/-- C3: the claim states that whenever the search key exceeds every
separator on an interior index page the walker descends into the
right-most child.  It does not: in the source the right-most pointer is
read into an unused variable and the descent is commented out.  On
`idxFileZ` the key "z" exceeds the only separator "a" of the root
`idxRootZ`, yet the result is empty; the right-most child `idxLeafZ`
(second conjunct) holds the matching entry ("z", rowid 7), so it was never
visited. -/
theorem indexInteriorNeverDescendsRightmost :
    index idxFileZ (strBytes "z") 9 idxRootZ = some [] ∧
    index idxFileZ (strBytes "z") 9 idxLeafZ =
      some [[Column.Text [122], Column.Integer 7]] := by decide

/-- C4: the claim states `seek` returns NotFound — an error value, not a
crash — when no leaf cell carries the target rowid, in particular on a leaf
with cell count 0.  The source instead executes `unreachable!()` (a panic,
modelled by `none`; no NotFound value exists in the code): seeking rowid 5
in the empty leaf panics, while the positive direction (second conjunct)
does return the decoded row on an exact match. -/
theorem seekPanicsInsteadOfNotFound :
    select (fun _ => []) 9 5 emptyLeaf = none ∧
    select (fun _ => []) 9 1 oneRowLeaf = some [Column.Integer 77] := by decide

/-- C5: the claim states varint decoding fails with the MalformedVarint
error — a returned error, not an out-of-bounds crash — when the buffer ends
before a byte with the high bit clear.  The source has no error path at
all: `variant` indexes `buf[i]` past the end and panics (modelled by
`none`) on the buffer `[0x80]`.  The second conjunct checks the documented
success behaviour on a terminated encoding: `[0x85, 0x7f]` accumulates to
5·128 + 127 = 767 with the remaining bytes returned. -/
theorem variantPanicsOnTruncatedInput :
    variant [128] = none ∧ variant [133, 127, 153] = some (767, [153]) := by decide

/-- C6: the claim states the record decoder succeeds on every serial type
in {0, 1, 2, 3, 8, 9} ∪ {odd ≥ 13} — in particular type 8 decodes to
integer 0 — and fails with UnknownSerialType exactly outside that set.
The code has no UnknownSerialType error and does not implement type 8 in
any decoder: `row` on the record `[2, 8]` hits `unimplemented!` (modelled
`none`) instead of producing `[Integer 0]`; moreover the scan/seek decoder
(`leafDecode`) does not implement type 3 either (second conjunct), though
`row` does decode type 3 with sign extension (third conjunct) and type 9 to
integer 1 (fourth conjunct). -/
theorem serialTypeEightUnimplemented :
    row [2, 8] = none ∧
    leafDecode 1 2 [3] [255, 255, 255] = none ∧
    row [2, 3, 255, 255, 255] = some [Column.Integer (-1)] ∧
    row [2, 9] = some [Column.Integer 1] := by decide

/-- C7: a serial type 0 in any position of a table-leaf record — hence in
particular in the position of an INTEGER PRIMARY KEY column — is
materialized as the enclosing cell's rowid (`row_id as i64`) by the
scan/seek decoder, and as integer 0 by `row`, the decoder that has no rowid
(index records): whenever decoding succeeds and position `j` of the
header's serial types is 0, position `j` of the row is the aliased value. -/
theorem serialTypeZeroRowidAlias :
    (∀ rid fuel header cell r ts j,
        leafDecode rid fuel header cell = some r → parseTypes fuel header = some ts →
        ts.get? j = some 0 → r.get? j = some (Column.Integer (u64toI64 rid))) ∧
    (∀ fuel header cell r ts j,
        rowDecode fuel header cell = some r → parseTypes fuel header = some ts →
        ts.get? j = some 0 → r.get? j = some (Column.Integer 0)) := by
  constructor
  · intro rid fuel header cell r ts j hdec hts hj
    obtain ⟨ts', hts', hprop⟩ := decodeLoop_zero _ _ fuel header cell r hdec
    rw [hts] at hts'
    injection hts' with h
    subst h
    exact hprop j hj
  · intro fuel header cell r ts j hdec hts hj
    obtain ⟨ts', hts', hprop⟩ := decodeLoop_zero _ _ fuel header cell r hdec
    rw [hts] at hts'
    injection hts' with h
    subst h
    exact hprop j hj

/-- Witness for C7: the one-column record with serial type 0 decodes to the
rowid alias (rowid 7) under `leafDecode`, and to integer 0 under the
rowid-less decoder. -/
theorem serialTypeZeroRowidAliasWitness :
    ([Column.Integer (u64toI64 7)] : Row).get? 0 = some (Column.Integer (u64toI64 7)) ∧
    ([Column.Integer 0] : Row).get? 0 = some (Column.Integer 0) :=
  ⟨serialTypeZeroRowidAlias.1 7 2 [0] [] [Column.Integer (u64toI64 7)] [0] 0 rfl rfl rfl,
   serialTypeZeroRowidAlias.2 2 [0] [] [Column.Integer 0] [0] 0 rfl rfl rfl⟩

/-- C8 counterexample: on the canonical sample database — two tables plus
the index `idx_apples_name`, modelled byte-for-byte by `schemaPage` — the
`.tables` output is not `apples oranges`: the code filters only the name
`sqlite_sequence` and therefore prints the index row's name as well. -/
theorem tablesOutputCounterexample :
    tablesOutput schemaPage ≠ some (strBytes "apples oranges") := by decide

/-- C8 (amended): `.tables` prints one space-joined line holding the name
of every schema row whose name is not `sqlite_sequence` — index rows
included — and on the canonical sample database the output is exactly
`apples oranges idx_apples_name`. -/
theorem tablesCommandOutput :
    (∀ fp, tablesOutput fp = (tables fp).map (fun ts =>
        sepJoin [32] ((ts.filter (fun t => t.name != strBytes "sqlite_sequence")).map
          (fun t => t.name)))) ∧
    tablesOutput schemaPage = some (strBytes "apples oranges idx_apples_name") :=
  ⟨fun fp => rfl, by decide⟩

/-- C9 counterexample: the record `[3, 8, 9]` has a single-byte
header-length varint (3 < 128), yet the code's decoding does not agree with
the record format on it: the format decodes serial types 8, 9 to
`[Integer 0, Integer 1]` while the code panics on type 8.  This refutes
"record decoding agrees with the record format exactly for records whose
header-length varint occupies a single byte". -/
theorem headerSingleByteCounterexample :
    row [3, 8, 9] = none ∧
    specRow [3, 8, 9] = some [Column.Integer 0, Column.Integer 1] := by decide

/-- C9 (amended): every decoding path reads the record's header length from
the first payload byte alone (`codeHeaderBounds`); the header region it
uses coincides with the record format's exactly when that byte is below 128
(single-byte varint), and differs on every record whose header-length
varint needs more bytes; on the concrete record `longHeaderRecord` with a
two-byte header-length encoding both decoders succeed and the decoded rows
diverge. -/
theorem headerLengthSingleByte :
    (∀ b0 rest, b0 < 128 → specHeaderBounds (b0 :: rest) = codeHeaderBounds (b0 :: rest)) ∧
    (∀ b0 rest, 128 ≤ b0 → b0 < 256 →
        specHeaderBounds (b0 :: rest) ≠ codeHeaderBounds (b0 :: rest)) ∧
    (row longHeaderRecord ≠ specRow longHeaderRecord ∧
      (row longHeaderRecord).isSome = true ∧ (specRow longHeaderRecord).isSome = true) := by
  refine ⟨specHeaderBounds_single, specHeaderBounds_multi, ?_⟩
  decide

/-- Witness for C9: the header bounds agree at first byte 5 and differ at
first byte 200. -/
theorem headerLengthSingleByteWitness :
    specHeaderBounds [5, 9] = codeHeaderBounds [5, 9] ∧
    specHeaderBounds [200, 3] ≠ codeHeaderBounds [200, 3] :=
  ⟨headerLengthSingleByte.1 5 [9] (by decide),
   headerLengthSingleByte.2.1 200 [3] (by decide) (by decide)⟩

/-- C10: the index probe returns full decoded records (`index` yields rows,
see `indexFindMissesRightmostSubtree` for examples) and the executor takes
the rowid for the table seek from position 1 of each record: for two-column
(key, rowid) records the extracted value is exactly the rowid column and is
handed to `select` cast `as u64`; on records with fewer than two columns
the extraction is undefined (the `i[1]` indexing panics, modelled `none`). -/
theorem rowidFromSecondColumn :
    (∀ k i, extractRowId [k, Column.Integer i] = some i) ∧
    (∀ r : Row, r.length < 2 → extractRowId r = none) ∧
    (∀ F fuel root k i, indexedSelect F fuel root [[k, Column.Integer i]] =
        (select F fuel (i64toU64 i) root).map (fun x => [x])) := by
  refine ⟨fun k i => rfl, ?_, ?_⟩
  · intro r h
    cases r with
    | nil => rfl
    | cons a r2 =>
      cases r2 with
      | nil => rfl
      | cons b r3 => simp [List.length_cons] at h; omega
  · intro F fuel root k i
    have hx : extractRowId [k, Column.Integer i] = some i := rfl
    simp only [indexedSelect, List.mapM_cons, List.mapM_nil, hx, Option.some_bind,
      Option.bind_eq_bind]
    cases hs : select F fuel (i64toU64 i) root <;> simp [hs]

/-- Witness for C10: position 1 of a two-column record is extracted as the
rowid; a one-column record panics. -/
theorem rowidFromSecondColumnWitness :
    extractRowId [Column.Text [97], Column.Integer 5] = some 5 ∧
    extractRowId [Column.Text [97]] = none :=
  ⟨rowidFromSecondColumn.1 (Column.Text [97]) 5,
   rowidFromSecondColumn.2.1 [Column.Text [97]] (by decide)⟩

end CCSqlite
